import Mathlib

/-!
Verification of the canvas element model and mutation protocol of the
no-code page builder (source: src/src/app/(frontend)/page.tsx).

The component state consists of three React useState cells:
  canvasElements       : CanvasElement[]
  selectedElementIndex : number | null
  draggingIndex        : number | null
The event handlers (handleDrop, handleElementDrop, handleElementDragStart,
setSelectedElementIndex via onClick, handleContentChange, handleStyleChange)
are embedded below as pure state transformers.
-/

/-- The closed set of element kinds offered by the palette
(type ElementType = Text | Image | Div | List in the source). -/
inductive ElementType where
  | Text
  | Image
  | Div
  | List
deriving DecidableEq, Repr

/-- String form of an element kind, as produced by the JS template
literal interpolation of the kind token. -/
def ElementType.kindName : ElementType → String
  | .Text => "Text"
  | .Image => "Image"
  | .Div => "Div"
  | .List => "List"

/-- One placed canvas item (interface CanvasElement in the source).
The style mapping React.CSSProperties is embedded as an association list
from style-property name to value; every value the handlers ever write is
a string. The optional children field of the source interface is declared
there but never populated or read by any handler, so it is omitted here. -/
structure CanvasElement where
  id : String
  type : ElementType
  content : String
  style : List (String × String)
deriving DecidableEq, Repr

/-- The three useState cells of the Home component. -/
structure BuilderState where
  canvasElements : List CanvasElement
  selectedElementIndex : Option Nat
  draggingIndex : Option Nat
deriving DecidableEq, Repr

/-- Initial state: useState([]) and useState(null) twice. -/
def initState : BuilderState :=
  { canvasElements := [], selectedElementIndex := none, draggingIndex := none }

/-- JS object spread with a computed key, spread old then override:
the result of the expression with braces containing ...old, [n]: v.
If the key is present its value is replaced in place; otherwise the
pair is appended at the end, matching JS property insertion order. -/
def setKey : List (String × String) → String → String → List (String × String)
  | [], n, v => [(n, v)]
  | (k, w) :: rest, n, v =>
    if k = n then (n, v) :: rest else (k, w) :: setKey rest n v

/-- Lookup of a style-property value in the style mapping. -/
def getKey : List (String × String) → String → Option String
  | [], _ => none
  | (k, w) :: rest, n => if k = n then some w else getKey rest n

/-- JS Array.prototype.splice with deleteCount 0 and a single inserted
item: splice(j, 0, a) inserts a before position j, clamping j to the
array length (a past-the-end j appends). -/
def spliceInsert (l : List CanvasElement) (j : Nat) (a : CanvasElement) :
    List CanvasElement :=
  l.take j ++ a :: l.drop j

/-- handleElementDragStart(index): sets draggingIndex to the index of the
element whose drag started. -/
def handleElementDragStart (s : BuilderState) (index : Nat) : BuilderState :=
  { s with draggingIndex := some index }

/-- The onClick handler of a placed element: setSelectedElementIndex(index). -/
def setSelectedElementIndex (s : BuilderState) (index : Nat) : BuilderState :=
  { s with selectedElementIndex := some index }

/-- handleElementDrop(dropIndex): the reorder drop. The source guard
reads: if draggingIndex is null or equals dropIndex, return (note the
early return happens before setDraggingIndex(null), so the dragging
index is NOT cleared on these paths). Otherwise it copies the array,
splices out the element at draggingIndex, splices it back in at
dropIndex, stores the result and clears draggingIndex. splice(di, 1)
removal is List.eraseIdx; the removed element, bound by destructuring,
is the element at di. The inner none branch (draggingIndex out of
range) cannot arise from the UI, which only starts drags on rendered
element indices. -/
def handleElementDrop (s : BuilderState) (dropIndex : Nat) : BuilderState :=
  match s.draggingIndex with
  | none => s
  | some di =>
    if di = dropIndex then s
    else
      match s.canvasElements[di]? with
      | none => s
      | some moved =>
        { s with
          canvasElements := spliceInsert (s.canvasElements.eraseIdx di) dropIndex moved
          draggingIndex := none }

/-- The element built by handleDrop from the drag payload kind; the id
argument stands for the value returned by the external uuidv4() call. -/
def mkNewElement (type : ElementType) (uuid : String) : CanvasElement :=
  { id := uuid
    type := type
    content := type.kindName ++ " Content"
    style := [("fontSize", "16px"), ("color", "#000000"), ("padding", "8px")] }

/-- handleDrop(e): the palette drop. Reads the payload kind, builds the
new element and appends it: setCanvasElements(prev concatenated with the
new element). The uuid parameter models the uuidv4() result. -/
def handleDrop (s : BuilderState) (type : ElementType) (uuid : String) :
    BuilderState :=
  { s with canvasElements := s.canvasElements ++ [mkNewElement type uuid] }

/-- handleContentChange(e): if selectedElementIndex is null, return;
otherwise replace the element at that index by a copy whose content is
the input value. The inner none branch (a selected index out of range)
cannot arise from the UI. -/
def handleContentChange (s : BuilderState) (v : String) : BuilderState :=
  match s.selectedElementIndex with
  | none => s
  | some i =>
    match s.canvasElements[i]? with
    | none => s
    | some el =>
      { s with canvasElements := s.canvasElements.set i { el with content := v } }

/-- Normalization of a style value in handleStyleChange: for the names
fontSize, padding and margin the raw value gets a literal px suffix via
the template literal; every other name passes the value through. -/
def normalizeStyleValue (name value : String) : String :=
  if name = "fontSize" ∨ name = "padding" ∨ name = "margin" then value ++ "px"
  else value

/-- handleStyleChange(e): if selectedElementIndex is null, return;
otherwise replace the element at that index by a copy whose style is the
old style spread together with the single overriding pair of the event
name and the normalized value. -/
def handleStyleChange (s : BuilderState) (name value : String) : BuilderState :=
  match s.selectedElementIndex with
  | none => s
  | some i =>
    match s.canvasElements[i]? with
    | none => s
    | some el =>
      let el2 := { el with style := setKey el.style name (normalizeStyleValue name value) }
      { s with canvasElements := s.canvasElements.set i el2 }

/-- One user gesture processed by the component. Indices supplied by the
UI (drag-start on an element, drop on an element slot, click on an
element) are indices of rendered elements, hence strictly below the
current length of canvasElements; the other inputs are unconstrained. -/
inductive Step : BuilderState → BuilderState → Prop where
  | paletteDrop (s : BuilderState) (type : ElementType) (uuid : String) :
      Step s (handleDrop s type uuid)
  | elementDragStart (s : BuilderState) (i : Nat)
      (h : i < s.canvasElements.length) :
      Step s (handleElementDragStart s i)
  | elementDrop (s : BuilderState) (j : Nat)
      (h : j < s.canvasElements.length) :
      Step s (handleElementDrop s j)
  | clickSelect (s : BuilderState) (i : Nat)
      (h : i < s.canvasElements.length) :
      Step s (setSelectedElementIndex s i)
  | contentChange (s : BuilderState) (v : String) :
      Step s (handleContentChange s v)
  | styleChange (s : BuilderState) (name value : String) :
      Step s (handleStyleChange s name value)

/-- States reachable from the empty canvas by any sequence of gestures. -/
def Reachable (s : BuilderState) : Prop :=
  Relation.ReflTransGen Step initState s

/-- A sample element with the default creation style, used for concrete
test states below. -/
def sampleEl (uuid : String) : CanvasElement :=
  mkNewElement ElementType.Text uuid

/-- Concrete four-element state with an active drag of index 0. -/
def w1State : BuilderState :=
  { canvasElements := [sampleEl "A", sampleEl "B", sampleEl "C", sampleEl "D"]
    selectedElementIndex := none
    draggingIndex := some 0 }

/-- Concrete two-element state with an active drag of index 0. -/
def w2State : BuilderState :=
  { canvasElements := [sampleEl "A", sampleEl "B"]
    selectedElementIndex := none
    draggingIndex := some 0 }

/-- Concrete one-element state with element 0 selected. -/
def w8State : BuilderState :=
  { canvasElements := [sampleEl "A"]
    selectedElementIndex := some 0
    draggingIndex := none }

/-- Concrete reachable state: palette drop of a Text element followed by
a click selecting index 0. -/
def w9State : BuilderState :=
  setSelectedElementIndex (handleDrop initState ElementType.Text "w9") 0

/-! Helper lemmas about the embedded operations. -/

theorem getKey_setKey_self (st : List (String × String)) (n v : String) :
    getKey (setKey st n v) n = some v := by
  induction st with
  | nil => simp [setKey, getKey]
  | cons p rest ih =>
    obtain ⟨k, w⟩ := p
    by_cases h : k = n
    · simp [setKey, getKey, h]
    · simp [setKey, getKey, h, ih]

theorem getKey_setKey_ne (st : List (String × String)) (n v k : String)
    (hk : k ≠ n) :
    getKey (setKey st n v) k = getKey st k := by
  induction st with
  | nil => simp [setKey, getKey, Ne.symm hk]
  | cons p rest ih =>
    obtain ⟨a, w⟩ := p
    by_cases h : a = n
    · subst h
      simp [setKey, getKey, Ne.symm hk]
    · simp [setKey, getKey, h, ih]

theorem spliceInsert_eq_insertIdx (l : List CanvasElement) (j : Nat)
    (a : CanvasElement) (h : j ≤ l.length) :
    spliceInsert l j a = l.insertIdx j a := by
  induction l generalizing j with
  | nil =>
    simp at h
    simp [spliceInsert, h]
  | cons x xs ih =>
    cases j with
    | zero => simp [spliceInsert]
    | succ j =>
      simp only [spliceInsert, List.take_succ_cons, List.drop_succ_cons,
        List.insertIdx_succ_cons, List.cons_append, List.cons.injEq, true_and]
      exact ih j (by simpa using h)

theorem length_spliceInsert (l : List CanvasElement) (j : Nat) (a : CanvasElement) :
    (spliceInsert l j a).length = l.length + 1 := by
  simp [spliceInsert]
  omega

theorem handleElementDrop_sel (s : BuilderState) (j : Nat) :
    (handleElementDrop s j).selectedElementIndex = s.selectedElementIndex := by
  unfold handleElementDrop
  cases hd : s.draggingIndex with
  | none => rfl
  | some di =>
    by_cases h : di = j
    · simp [h]
    · cases he : s.canvasElements[di]? <;> simp [h, he]

theorem handleElementDrop_length (s : BuilderState) (j : Nat) :
    (handleElementDrop s j).canvasElements.length = s.canvasElements.length := by
  unfold handleElementDrop
  cases hd : s.draggingIndex with
  | none => rfl
  | some di =>
    by_cases h : di = j
    · simp [h]
    · cases he : s.canvasElements[di]? with
      | none => simp [h, he]
      | some moved =>
        have hdi : di < s.canvasElements.length := (List.getElem?_eq_some.mp he).1
        simp [h, he, length_spliceInsert, List.length_eraseIdx_of_lt hdi]
        omega

theorem handleContentChange_sel (s : BuilderState) (v : String) :
    (handleContentChange s v).selectedElementIndex = s.selectedElementIndex := by
  unfold handleContentChange
  cases hs : s.selectedElementIndex with
  | none => simp [hs]
  | some k => cases he : s.canvasElements[k]? <;> simp [hs, he]

theorem handleContentChange_length (s : BuilderState) (v : String) :
    (handleContentChange s v).canvasElements.length = s.canvasElements.length := by
  unfold handleContentChange
  cases hs : s.selectedElementIndex with
  | none => simp
  | some k => cases he : s.canvasElements[k]? <;> simp [he]

theorem handleStyleChange_sel (s : BuilderState) (name value : String) :
    (handleStyleChange s name value).selectedElementIndex = s.selectedElementIndex := by
  unfold handleStyleChange
  cases hs : s.selectedElementIndex with
  | none => simp [hs]
  | some k => cases he : s.canvasElements[k]? <;> simp [hs, he]

theorem handleStyleChange_length (s : BuilderState) (name value : String) :
    (handleStyleChange s name value).canvasElements.length = s.canvasElements.length := by
  unfold handleStyleChange
  cases hs : s.selectedElementIndex with
  | none => simp
  | some k => cases he : s.canvasElements[k]? <;> simp [he]

theorem handleStyleChange_elements_eq (s : BuilderState) (i : Nat)
    (el : CanvasElement) (name value : String)
    (hs : s.selectedElementIndex = some i)
    (he : s.canvasElements[i]? = some el) :
    (handleStyleChange s name value).canvasElements =
      s.canvasElements.set i
        { el with style := setKey el.style name (normalizeStyleValue name value) } := by
  unfold handleStyleChange
  rw [hs]
  simp [he]

theorem step_selValid {s s2 : BuilderState} (hstep : Step s s2)
    (hv : ∀ i, s.selectedElementIndex = some i → i < s.canvasElements.length) :
    ∀ i, s2.selectedElementIndex = some i → i < s2.canvasElements.length := by
  cases hstep with
  | paletteDrop type uuid =>
    intro i hi
    have h := hv i hi
    simp [handleDrop]
    omega
  | elementDragStart i h =>
    intro k hk
    exact hv k hk
  | elementDrop j h =>
    intro k hk
    rw [handleElementDrop_sel] at hk
    rw [handleElementDrop_length]
    exact hv k hk
  | clickSelect i h =>
    intro k hk
    simp [setSelectedElementIndex] at hk
    subst hk
    exact h
  | contentChange v =>
    intro k hk
    rw [handleContentChange_sel] at hk
    rw [handleContentChange_length]
    exact hv k hk
  | styleChange name value =>
    intro k hk
    rw [handleStyleChange_sel] at hk
    rw [handleStyleChange_length]
    exact hv k hk

/-! The claims. -/

/-- C1: for every element list and every pair of indices i and j with
i different from j, i the active draggingIndex and both in range, a
reorder drop on slot j removes the element at index i and reinserts it
at index j of the already-shortened list (splice out, then splice in). -/
theorem reorder_splice_semantics (s : BuilderState) (i j : Nat)
    (hd : s.draggingIndex = some i) (hij : i ≠ j)
    (hi : i < s.canvasElements.length) (hj : j < s.canvasElements.length) :
    (handleElementDrop s j).canvasElements =
      (s.canvasElements.eraseIdx i).insertIdx j (s.canvasElements.get ⟨i, hi⟩) := by
  have he : s.canvasElements[i]? = some (s.canvasElements.get ⟨i, hi⟩) := by
    simp [List.getElem?_eq_getElem hi]
  unfold handleElementDrop
  rw [hd]
  simp only [hij, if_false, he]
  exact spliceInsert_eq_insertIdx _ _ _
    (by rw [List.length_eraseIdx_of_lt hi]; omega)

/-- C1 witness: dragging index 0 of the four-element list A B C D onto
index 2 yields B C A D. -/
theorem reorder_splice_semantics_witness :
    w1State.draggingIndex = some 0 ∧ (0 : Nat) ≠ 2 ∧
    0 < w1State.canvasElements.length ∧ 2 < w1State.canvasElements.length ∧
    (handleElementDrop w1State 2).canvasElements =
      [sampleEl "B", sampleEl "C", sampleEl "A", sampleEl "D"] := by
  refine ⟨rfl, by decide, by decide, by decide, ?_⟩
  rw [reorder_splice_semantics w1State 0 2 rfl (by decide) (by decide) (by decide)]
  rfl

/-- C2 counterexample: the claim that draggingIndex is reset to none
after every reorder drop attempt fails on a drop-on-self. In w2State
the drag of index 0 is active; dropping on index 0 takes the early
return of handleElementDrop, which happens before setDraggingIndex(null),
so draggingIndex stays some 0. -/
theorem drop_on_self_keeps_draggingIndex_cex :
    (handleElementDrop w2State 0).draggingIndex ≠ none := by decide

/-- C2 amended: only a successful move resets draggingIndex to none.
With an active in-range drag of index i, a drop on index j leaves
draggingIndex at some i when j equals i (drop-on-self, early return)
and clears it to none otherwise; a drop with no active drag trivially
leaves draggingIndex at none. -/
theorem draggingIndex_cleared_only_on_move (s : BuilderState) (i j : Nat)
    (hd : s.draggingIndex = some i) (hi : i < s.canvasElements.length) :
    (handleElementDrop s j).draggingIndex = if i = j then some i else none := by
  have he : s.canvasElements[i]? = some (s.canvasElements.get ⟨i, hi⟩) := by
    simp [List.getElem?_eq_getElem hi]
  unfold handleElementDrop
  rw [hd]
  by_cases h : i = j
  · simp [h, hd]
  · simp [h, he]

/-- C2 amended witness: in w2State, a drop of the active index 0 onto
index 1 clears draggingIndex. -/
theorem draggingIndex_cleared_only_on_move_witness :
    w2State.draggingIndex = some 0 ∧ 0 < w2State.canvasElements.length ∧
    (handleElementDrop w2State 1).draggingIndex = none := by
  refine ⟨rfl, by decide, ?_⟩
  have h := draggingIndex_cleared_only_on_move w2State 0 1 rfl (by decide)
  simpa using h

/-- C3: a reorder drop performed with no active drag, or with the drop
index equal to the dragging index, leaves the elements sequence
unchanged. -/
theorem reorder_noop_preserves_elements (s : BuilderState) (j : Nat)
    (h : s.draggingIndex = none ∨ s.draggingIndex = some j) :
    (handleElementDrop s j).canvasElements = s.canvasElements := by
  unfold handleElementDrop
  rcases h with h | h <;> simp [h]

/-- C3 witness: dropping the actively dragged element 0 of w2State onto
itself leaves the element list unchanged. -/
theorem reorder_noop_preserves_elements_witness :
    (w2State.draggingIndex = none ∨ w2State.draggingIndex = some 0) ∧
    (handleElementDrop w2State 0).canvasElements = w2State.canvasElements :=
  ⟨Or.inr rfl, reorder_noop_preserves_elements w2State 0 (Or.inr rfl)⟩

/-- C4: a palette drop with a fresh uuid appends exactly one element at
the tail whose id is the fresh uuid (distinct from every existing id),
whose type is the payload kind, whose content is the kind name followed
by the literal string " Content", and whose style is exactly the default
fontSize 16px, color number sign 000000, padding 8px mapping. -/
theorem paletteDrop_appends_fresh_element (s : BuilderState)
    (type : ElementType) (uuid : String)
    (hfresh : uuid ∉ s.canvasElements.map CanvasElement.id) :
    (handleDrop s type uuid).canvasElements =
      s.canvasElements ++ [mkNewElement type uuid] ∧
    (∀ el ∈ s.canvasElements, (mkNewElement type uuid).id ≠ el.id) ∧
    (mkNewElement type uuid).type = type ∧
    (mkNewElement type uuid).content = type.kindName ++ " Content" ∧
    (mkNewElement type uuid).style =
      [("fontSize", "16px"), ("color", "#000000"), ("padding", "8px")] := by
  refine ⟨rfl, ?_, rfl, rfl, rfl⟩
  intro el hel heq
  exact hfresh (List.mem_map.mpr ⟨el, hel, heq.symm⟩)

/-- C4 witness: dropping an Image with uuid E on the two-element state
whose ids are A and B appends the expected element. -/
theorem paletteDrop_appends_fresh_element_witness :
    ("E" ∉ w2State.canvasElements.map CanvasElement.id) ∧
    (handleDrop w2State ElementType.Image "E").canvasElements =
      w2State.canvasElements ++ [mkNewElement ElementType.Image "E"] := by
  refine ⟨by decide, ?_⟩
  exact (paletteDrop_appends_fresh_element w2State ElementType.Image "E" (by decide)).1

/-- C5: a palette drop grows the element list by exactly one, keeps
every pre-existing element unchanged in value and relative order (the
old list is a prefix of the new one), and leaves selectedElementIndex
unchanged. -/
theorem paletteDrop_frame (s : BuilderState) (type : ElementType)
    (uuid : String) :
    (handleDrop s type uuid).canvasElements.length =
      s.canvasElements.length + 1 ∧
    (handleDrop s type uuid).canvasElements.take s.canvasElements.length =
      s.canvasElements ∧
    (handleDrop s type uuid).selectedElementIndex = s.selectedElementIndex := by
  refine ⟨by simp [handleDrop], ?_, rfl⟩
  exact List.take_left s.canvasElements [mkNewElement type uuid]

/-- C6: with no selection, both the content update and the style update
leave every element unchanged. -/
theorem edit_without_selection_noop (s : BuilderState)
    (v name value : String) (h : s.selectedElementIndex = none) :
    (handleContentChange s v).canvasElements = s.canvasElements ∧
    (handleStyleChange s name value).canvasElements = s.canvasElements := by
  constructor
  · unfold handleContentChange
    rw [h]
  · unfold handleStyleChange
    rw [h]

/-- C6 witness: w2State has no selection, and a content update as well
as a style update leave its elements untouched. -/
theorem edit_without_selection_noop_witness :
    w2State.selectedElementIndex = none ∧
    (handleContentChange w2State "x").canvasElements = w2State.canvasElements ∧
    (handleStyleChange w2State "color" "red").canvasElements =
      w2State.canvasElements := by
  have h := edit_without_selection_noop w2State "x" "color" "red" rfl
  exact ⟨rfl, h.1, h.2⟩

/-- C7: on a selected element, a style update whose property name is
fontSize, padding or margin stores the raw value with the literal px
suffix appended, and a style update with any other property name stores
the raw value unchanged. -/
theorem styleChange_px_normalization (s : BuilderState) (i : Nat)
    (el : CanvasElement) (name value : String)
    (hs : s.selectedElementIndex = some i)
    (he : s.canvasElements[i]? = some el) :
    ∃ el2, (handleStyleChange s name value).canvasElements[i]? = some el2 ∧
      getKey el2.style name =
        some (if name = "fontSize" ∨ name = "padding" ∨ name = "margin"
              then value ++ "px" else value) := by
  have hi : i < s.canvasElements.length := (List.getElem?_eq_some.mp he).1
  refine ⟨{ el with style := setKey el.style name (normalizeStyleValue name value) },
    ?_, ?_⟩
  · rw [handleStyleChange_elements_eq s i el name value hs he]
    exact List.getElem?_set_self hi
  · rw [getKey_setKey_self]
    rfl

/-- C7 witness: in w8State a fontSize update with raw value 20 stores
20px, and a color update with raw value ff0000 hex stores it unchanged. -/
theorem styleChange_px_normalization_witness :
    w8State.selectedElementIndex = some 0 ∧
    (∃ el2, (handleStyleChange w8State "fontSize" "20").canvasElements[0]? =
        some el2 ∧ getKey el2.style "fontSize" = some "20px") ∧
    (∃ el2, (handleStyleChange w8State "color" "#ff0000").canvasElements[0]? =
        some el2 ∧ getKey el2.style "color" = some "#ff0000") := by
  refine ⟨rfl, ?_, ?_⟩
  · obtain ⟨el2, h1, h2⟩ :=
      styleChange_px_normalization w8State 0 (sampleEl "A") "fontSize" "20" rfl rfl
    exact ⟨el2, h1, by rw [h2]; rfl⟩
  · obtain ⟨el2, h1, h2⟩ :=
      styleChange_px_normalization w8State 0 (sampleEl "A") "color" "#ff0000" rfl rfl
    exact ⟨el2, h1, by rw [h2]; rfl⟩

/-- C8: on a selected element, a style update of one property name
changes at most that key of the style mapping of the element: every
other style key keeps its value, and id, type and content of the
element are unchanged. -/
theorem styleChange_partial_merge (s : BuilderState) (i : Nat)
    (el : CanvasElement) (name value : String)
    (hs : s.selectedElementIndex = some i)
    (he : s.canvasElements[i]? = some el) :
    ∃ el2, (handleStyleChange s name value).canvasElements[i]? = some el2 ∧
      el2.id = el.id ∧ el2.type = el.type ∧ el2.content = el.content ∧
      ∀ k, k ≠ name → getKey el2.style k = getKey el.style k := by
  have hi : i < s.canvasElements.length := (List.getElem?_eq_some.mp he).1
  refine ⟨{ el with style := setKey el.style name (normalizeStyleValue name value) },
    ?_, rfl, rfl, rfl, ?_⟩
  · rw [handleStyleChange_elements_eq s i el name value hs he]
    exact List.getElem?_set_self hi
  · intro k hk
    exact getKey_setKey_ne el.style name (normalizeStyleValue name value) k hk

/-- C8 witness: in w8State a fontWeight update leaves id, type, content
and every other style key of the selected element unchanged. -/
theorem styleChange_partial_merge_witness :
    w8State.selectedElementIndex = some 0 ∧
    w8State.canvasElements[0]? = some (sampleEl "A") ∧
    ∃ el2, (handleStyleChange w8State "fontWeight" "bold").canvasElements[0]? =
        some el2 ∧
      el2.id = (sampleEl "A").id ∧ el2.type = (sampleEl "A").type ∧
      el2.content = (sampleEl "A").content ∧
      ∀ k, k ≠ "fontWeight" → getKey el2.style k = getKey (sampleEl "A").style k :=
  ⟨rfl, rfl,
    styleChange_partial_merge w8State 0 (sampleEl "A") "fontWeight" "bold" rfl rfl⟩

/-- C10: the px-suffix dispatch of the style update inspects only the
property name: for any raw value string, including the empty string and
non-numeric text, an update of fontSize, padding or margin on a
selected element stores exactly the raw value followed by px. -/
theorem styleChange_blind_px_dispatch (s : BuilderState) (i : Nat)
    (el : CanvasElement) (name value : String)
    (hs : s.selectedElementIndex = some i)
    (he : s.canvasElements[i]? = some el)
    (hn : name = "fontSize" ∨ name = "padding" ∨ name = "margin") :
    ∃ el2, (handleStyleChange s name value).canvasElements[i]? = some el2 ∧
      getKey el2.style name = some (value ++ "px") := by
  have hi : i < s.canvasElements.length := (List.getElem?_eq_some.mp he).1
  refine ⟨{ el with style := setKey el.style name (normalizeStyleValue name value) },
    ?_, ?_⟩
  · rw [handleStyleChange_elements_eq s i el name value hs he]
    exact List.getElem?_set_self hi
  · rw [getKey_setKey_self]
    unfold normalizeStyleValue
    rw [if_pos hn]

/-- C10 witness: in w8State a padding update with the non-numeric raw
value abc stores abcpx, and a margin update with the empty raw value
stores px. -/
theorem styleChange_blind_px_dispatch_witness :
    w8State.selectedElementIndex = some 0 ∧
    (∃ el2, (handleStyleChange w8State "padding" "abc").canvasElements[0]? =
        some el2 ∧ getKey el2.style "padding" = some "abcpx") ∧
    (∃ el2, (handleStyleChange w8State "margin" "").canvasElements[0]? =
        some el2 ∧ getKey el2.style "margin" = some "px") := by
  refine ⟨rfl, ?_, ?_⟩
  · obtain ⟨el2, h1, h2⟩ := styleChange_blind_px_dispatch w8State 0 (sampleEl "A")
      "padding" "abc" rfl rfl (Or.inr (Or.inl rfl))
    exact ⟨el2, h1, by rw [h2]; rfl⟩
  · obtain ⟨el2, h1, h2⟩ := styleChange_blind_px_dispatch w8State 0 (sampleEl "A")
      "margin" "" rfl rfl (Or.inr (Or.inr rfl))
    exact ⟨el2, h1, by rw [h2]; rfl⟩

/-- C9: in every state reachable from the initial empty canvas by any
sequence of gestures (palette drop, element drag-start, reorder drop,
element click selection, content update, style update), the selected
index is either none or a valid index strictly below the current number
of elements. -/
theorem selectedIndex_invariant (s : BuilderState) (hr : Reachable s) :
    ∀ i, s.selectedElementIndex = some i → i < s.canvasElements.length := by
  unfold Reachable at hr
  induction hr with
  | refl =>
    intro i hi
    simp [initState] at hi
  | tail h hstep ih =>
    exact step_selValid hstep ih

/-- C9 witness: the state reached by one palette drop followed by a
click on index 0 is reachable, selects index 0, and 0 is below the
element count. -/
theorem selectedIndex_invariant_witness :
    Reachable w9State ∧ w9State.selectedElementIndex = some 0 ∧
    0 < w9State.canvasElements.length := by
  have h1 : Step initState (handleDrop initState ElementType.Text "w9") :=
    Step.paletteDrop initState ElementType.Text "w9"
  have h2 : Step (handleDrop initState ElementType.Text "w9") w9State :=
    Step.clickSelect (handleDrop initState ElementType.Text "w9") 0 (by decide)
  have hr : Reachable w9State :=
    Relation.ReflTransGen.tail (Relation.ReflTransGen.tail
      Relation.ReflTransGen.refl h1) h2
  exact ⟨hr, rfl, selectedIndex_invariant w9State hr 0 rfl⟩
